import Mathlib

/-!
Shallow embedding of the trendyol harvesting scripts
(`trendyol_sitemap.py`, `selenium_scraper.py`) and proofs about them.

Python values flowing through the scraper are modelled by `Json`;
Python `None` is `Json.null`.  Exceptions raised by dictionary / list
access are modelled with `Except Unit`.  A Python `dict` that is
mutated by item assignment is modelled as an association list with
first-occurrence update (`dictSet` / `sset`), which preserves Python's
key-uniqueness and insertion order; Json-keyed dicts compare keys with
Python's key equality (`pyKey`, under which `True`/`False` alias
`1`/`0`), and assigning under an unhashable key (an array or object)
raises `TypeError` (`Json.hashable`), which matters at the one site
whose keys come from the payload, the attribute merge.
-/

inductive Json where
  | null
  | bool (b : Bool)
  | str (s : String)
  | num (n : Int)
  | arr (xs : List Json)
  | obj (kvs : List (String × Json))

mutual

def Json.beq : Json → Json → Bool
  | .null, .null => true
  | .bool a, .bool b => a == b
  | .str a, .str b => a == b
  | .num a, .num b => a == b
  | .arr xs, .arr ys => Json.beqList xs ys
  | .obj xs, .obj ys => Json.beqObj xs ys
  | _, _ => false

def Json.beqList : List Json → List Json → Bool
  | [], [] => true
  | x :: xs, y :: ys => Json.beq x y && Json.beqList xs ys
  | _ :: _, [] => false
  | [], _ :: _ => false

def Json.beqObj : List (String × Json) → List (String × Json) → Bool
  | [], [] => true
  | (k1, v1) :: xs, (k2, v2) :: ys => k1 == k2 && Json.beq v1 v2 && Json.beqObj xs ys
  | _ :: _, [] => false
  | [], _ :: _ => false

end

mutual

theorem Json.beq_iff : ∀ a b : Json, Json.beq a b = true ↔ a = b
  | .null, .null => by simp [Json.beq]
  | .bool a, .bool b => by simp [Json.beq]
  | .str a, .str b => by simp [Json.beq]
  | .num a, .num b => by simp [Json.beq]
  | .arr xs, .arr ys => by
      simp only [Json.beq, Json.beqList_iff xs ys, Json.arr.injEq]
  | .obj xs, .obj ys => by
      simp only [Json.beq, Json.beqObj_iff xs ys, Json.obj.injEq]
  | .null, .bool _ | .null, .str _ | .null, .num _ | .null, .arr _ | .null, .obj _ => by simp [Json.beq]
  | .bool _, .null | .bool _, .str _ | .bool _, .num _ | .bool _, .arr _ | .bool _, .obj _ => by simp [Json.beq]
  | .str _, .null | .str _, .bool _ | .str _, .num _ | .str _, .arr _ | .str _, .obj _ => by simp [Json.beq]
  | .num _, .null | .num _, .bool _ | .num _, .str _ | .num _, .arr _ | .num _, .obj _ => by simp [Json.beq]
  | .arr _, .null | .arr _, .bool _ | .arr _, .str _ | .arr _, .num _ | .arr _, .obj _ => by simp [Json.beq]
  | .obj _, .null | .obj _, .bool _ | .obj _, .str _ | .obj _, .num _ | .obj _, .arr _ => by simp [Json.beq]

theorem Json.beqList_iff : ∀ xs ys : List Json, Json.beqList xs ys = true ↔ xs = ys
  | [], [] => by simp [Json.beqList]
  | x :: xs, y :: ys => by
      simp only [Json.beqList, Bool.and_eq_true, Json.beq_iff x y, Json.beqList_iff xs ys,
        List.cons.injEq]
  | _ :: _, [] => by simp [Json.beqList]
  | [], _ :: _ => by simp [Json.beqList]

theorem Json.beqObj_iff : ∀ xs ys : List (String × Json), Json.beqObj xs ys = true ↔ xs = ys
  | [], [] => by simp [Json.beqObj]
  | (k1, v1) :: xs, (k2, v2) :: ys => by
      simp only [Json.beqObj, Bool.and_eq_true, beq_iff_eq, Json.beq_iff v1 v2,
        Json.beqObj_iff xs ys, List.cons.injEq, Prod.mk.injEq]
  | _ :: _, [] => by simp [Json.beqObj]
  | [], _ :: _ => by simp [Json.beqObj]

end

instance : DecidableEq Json := fun a b =>
  decidable_of_iff (Json.beq a b = true) (Json.beq_iff a b)

/-- Python truthiness of a JSON value (`if x:`). -/
def Json.truthy : Json → Bool
  | .null => false
  | .bool b => b
  | .str s => !s.isEmpty
  | .num n => n != 0
  | .arr xs => !xs.isEmpty
  | .obj kvs => !kvs.isEmpty

/-- Python `x[k]` for a string key: `KeyError` on a dict without the key,
`TypeError` on a non-dict; both are modelled as `Except.error`. -/
def Json.item : Json → String → Except Unit Json
  | .obj kvs, k =>
    match kvs.find? (fun p => p.1 == k) with
    | some p => .ok p.2
    | none => .error ()
  | _, _ => .error ()

/-- Python `x.get(k, dflt)`: returns the default on a missing key, raises
`AttributeError` when `x` is not a dict. -/
def Json.getD : Json → String → Json → Except Unit Json
  | .obj kvs, k, dflt => .ok (((kvs.find? (fun p => p.1 == k)).map Prod.snd).getD dflt)
  | _, _, _ => .error ()

/-- Python `x[0]`: first element of a list (or first character of a string);
`IndexError` / `TypeError` / `KeyError` otherwise. -/
def Json.get0 : Json → Except Unit Json
  | .arr (x :: _) => .ok x
  | .str s =>
    match s.data with
    | c :: _ => .ok (.str (String.mk [c]))
    | [] => .error ()
  | _ => .error ()

/-- Python `str(x)`; the container cases are abbreviated renderings, no
claim inspects the string produced for a container. -/
def pyStr : Json → String
  | .null => "None"
  | .bool true => "True"
  | .bool false => "False"
  | .str s => s
  | .num n => toString n
  | .arr _ => "[...]"
  | .obj _ => "{...}"

/-- Python `for x in j`: lists yield elements, strings yield characters,
dicts yield their keys, other values raise `TypeError`. -/
def pyIter : Json → Except Unit (List Json)
  | .arr xs => .ok xs
  | .str s => .ok (s.data.map (fun c => Json.str (String.mk [c])))
  | .obj kvs => .ok (kvs.map (fun p => Json.str p.1))
  | _ => .error ()

/-- Canonical form of a value for Python dict-key comparison: `bool` is
a subclass of `int` in Python, so the keys `True`/`False` compare (and
hash) equal to `1`/`0`; every other value is its own canonical form.
Two values are the same Python dict key iff their canonical forms are
structurally equal. -/
def pyKey : Json → Json
  | .bool true => .num 1
  | .bool false => .num 0
  | j => j

/-- Python hashability: lists and dicts are unhashable and raise
`TypeError` when used as a dict key; every scalar is hashable. -/
def Json.hashable : Json → Bool
  | .arr _ => false
  | .obj _ => false
  | _ => true

/-- Item assignment `d[k] = v` on a Json-keyed Python dict: replace the
first (and, for dicts built by assignment, only) binding whose key is
Python-equal to `k` in place — keeping the originally stored key, as
Python does — and append a new binding otherwise.  Callers only reach
this with hashable keys (see `attrLoop`). -/
def dictSet : List (Json × Json) → Json → Json → List (Json × Json)
  | [], k, v => [(k, v)]
  | p :: rest, k, v =>
    if pyKey p.1 = pyKey k then (p.1, v) :: rest else p :: dictSet rest k v

/-- Lookup in a Json-keyed dict, under Python key equality. -/
def dictGet : List (Json × Json) → Json → Option Json
  | [], _ => none
  | p :: rest, k => if pyKey p.1 = pyKey k then some p.2 else dictGet rest k

/-- Item assignment on a string-keyed dict. -/
def sset {α : Type} : List (String × α) → String → α → List (String × α)
  | [], k, v => [(k, v)]
  | p :: rest, k, v => if p.1 = k then (k, v) :: rest else p :: sset rest k v

/-- Lookup in a string-keyed dict. -/
def sget {α : Type} : List (String × α) → String → Option α
  | [], _ => none
  | p :: rest, k => if p.1 = k then some p.2 else sget rest k

/-- Search for the regex `p-(\d+)` in a character list: scan left to
right for a literal `p`, `-`, digit; on a hit return the maximal digit
run (the capture group), otherwise keep scanning. -/
def pidSearch : List Char → Option (List Char)
  | [] => none
  | c :: rest =>
    match c, rest with
    | 'p', '-' :: d :: rest2 =>
      if d.isDigit then some (d :: rest2.takeWhile Char.isDigit) else pidSearch rest
    | _, _ => pidSearch rest

/-- `get_product_id` from trendyol_sitemap.py: `product_pattern.search(link)`
returning `match.group(1)`, or Python `None` (here `Option.none`). -/
def get_product_id (link : String) : Option String :=
  (pidSearch link.data).map (fun cs => String.mk cs)

/-- `grab_product_data` from trendyol_sitemap.py, with the HTTP layer
abstracted into a `fetch` oracle mapping a product id to the response's
status code and decoded JSON body.  On a 200 status with a truthy body
the code logs `response.json()["name"]`, whose `KeyError` propagates;
on a 200 with a falsy body it returns that body; on any other status it
returns Python `None`. -/
def grab_product_data (fetch : String → Nat × Json) (product_id : String) :
    Except Unit Json :=
  let r := fetch product_id
  if r.1 = 200 then
    if r.2.truthy then (Json.item r.2 "name").map (fun _ => r.2)
    else .ok r.2
  else .ok .null

/-- `get_product_data_from_link` from trendyol_sitemap.py: parse the id
out of the link; a parsed id (a non-empty, hence truthy, string) is fed
to `grab_product_data`, otherwise the function returns `None` without
touching the network. -/
def get_product_data_from_link (fetch : String → Nat × Json) (link : String) :
    Except Unit Json :=
  match get_product_id link with
  | some pid => if pid.isEmpty then .ok .null else grab_product_data fetch pid
  | none => .ok .null

/-- C4: identifier extraction matches a literal `p-` followed by digits
and returns the digit group: `"https://site/x/p-123456"` yields
`"123456"`; `"https://site/x/category"` contains no such pattern, so no
identifier is parsed and the API-variant extraction returns no record
(`None`) for every possible fetch oracle — in particular its result does
not depend on the network at all. -/
theorem C4_identifier_extraction :
    get_product_id "https://site/x/p-123456" = some "123456" ∧
    get_product_id "https://site/x/category" = none ∧
    ∀ fetch : String → Nat × Json,
      get_product_data_from_link fetch "https://site/x/category" = .ok .null := by
  refine ⟨by decide, by decide, fun fetch => ?_⟩
  simp only [get_product_data_from_link,
    show get_product_id "https://site/x/category" = none by decide]

/-- The attribute-merge loop ending `required_product_data`
(trendyol_sitemap.py lines 109-112): each entry's `key` is read (a
`KeyError` aborts the loop, returning the dict built so far), entries
keyed `description` are skipped, and every other entry's `value` is
read (a `KeyError` aborts likewise) and then assigned under that key —
an assignment Python only performs for a hashable key: an unhashable
key (a JSON array or object) raises `TypeError` at
`required_data[key] = ...`, which the surrounding `except` turns into
returning the dict built so far, dropping this and all later
entries. -/
def attrLoop : List Json → List (Json × Json) → List (Json × Json)
  | [], d => d
  | a :: rest, d =>
    match Json.item a "key" with
    | .error _ => d
    | .ok kj =>
      if kj = Json.str "description" then attrLoop rest d
      else
        match Json.item a "value" with
        | .error _ => d
        | .ok v =>
          if kj.hashable then attrLoop rest (dictSet d kj v) else d

/-- The `for description_attribute in response_dict.get('attributes', [])`
stage: fetch the attribute list (default `[]`), start iterating (a
non-iterable raises, returning the dict built so far), then run the
merge loop. -/
def attrPhase (rd : Json) (d : List (Json × Json)) : List (Json × Json) :=
  match Json.getD rd "attributes" (.arr []) with
  | .error _ => d
  | .ok attrs =>
    match pyIter attrs with
    | .error _ => d
    | .ok al => attrLoop al d

/-- The stock-gated block of `required_product_data` (lines 104-108):
`if required_data['in_stock'] and response_dict.get('allVariants'):`
with Python short-circuit evaluation, then the `barcode`, `price` and
`size` assignments (`size` uses `get('size') or get('value')`); any
raise returns the dict built so far, skipping the attribute phase. -/
def stockPhase (rd : Json) (ist : Json) (d5 : List (Json × Json)) : List (Json × Json) :=
  if ist.truthy then
    match Json.getD rd "allVariants" .null with
    | .error _ => d5
    | .ok av =>
      if av.truthy then
        match Json.item rd "allVariants" with
        | .error _ => d5
        | .ok av2 =>
          match Json.get0 av2 with
          | .error _ => d5
          | .ok v0 =>
            match Json.item v0 "barcode" with
            | .error _ => d5
            | .ok bc =>
              let d6 := dictSet d5 (.str "barcode") (.str (pyStr bc))
              match Json.item v0 "price" with
              | .error _ => d6
              | .ok pr =>
                let d7 := dictSet d6 (.str "price") pr
                match Json.getD v0 "size" .null with
                | .error _ => d7
                | .ok sz =>
                  if sz.truthy then attrPhase rd (dictSet d7 (.str "size") sz)
                  else
                    match Json.getD v0 "value" .null with
                    | .error _ => d7
                    | .ok vl => attrPhase rd (dictSet d7 (.str "size") vl)
      else attrPhase rd d5
  else attrPhase rd d5

/-- `required_product_data` from trendyol_sitemap.py: builds
`{'url': link}` and then, inside one `try`, assigns `description`,
`images`, `name`, `brand_name`, `in_stock`, the stock-gated fields and
the merged attributes; the first raising access ends the `try` and the
dict built so far is returned. -/
def required_product_data (rd : Json) (link : String) : List (Json × Json) :=
  let d0 : List (Json × Json) := [(.str "url", .str link)]
  match Json.getD rd "brand" (.obj []) with
  | .error _ => d0
  | .ok b =>
    match Json.getD b "description" .null with
    | .error _ => d0
    | .ok desc =>
      let d1 := dictSet d0 (.str "description") desc
      match Json.item rd "images" with
      | .error _ => d1
      | .ok imgs =>
        let d2 := dictSet d1 (.str "images") imgs
        match Json.item rd "name" with
        | .error _ => d2
        | .ok nm =>
          let d3 := dictSet d2 (.str "name") nm
          match Json.getD rd "brand" (.obj []) with
          | .error _ => d3
          | .ok b2 =>
            match Json.getD b2 "name" .null with
            | .error _ => d3
            | .ok bn =>
              let d4 := dictSet d3 (.str "brand_name") bn
              match Json.getD rd "inStock" .null with
              | .error _ => d4
              | .ok ist =>
                let d5 := dictSet d4 (.str "in_stock") ist
                stockPhase rd ist d5

theorem dictGet_set_self (d : List (Json × Json)) (k v : Json) :
    dictGet (dictSet d k v) k = some v := by
  induction d with
  | nil => simp [dictSet, dictGet]
  | cons p rest ih =>
    by_cases hp : pyKey p.1 = pyKey k
    · simp [dictSet, dictGet, hp]
    · simp [dictSet, dictGet, hp, ih]

theorem dictGet_set_ne (d : List (Json × Json)) (k k' v : Json)
    (h : pyKey k' ≠ pyKey k) : dictGet (dictSet d k' v) k = dictGet d k := by
  induction d with
  | nil => simp [dictSet, dictGet, h]
  | cons p rest ih =>
    by_cases hp : pyKey p.1 = pyKey k'
    · have hpk : ¬ pyKey p.1 = pyKey k := by rw [hp]; exact h
      simp [dictSet, dictGet, hp, hpk, h]
    · simp [dictSet, dictGet, hp, ih]

theorem pyKey_eq_str_iff : ∀ (k : Json) (s : String),
    pyKey k = Json.str s ↔ k = Json.str s
  | .null, s => by simp [pyKey]
  | .bool true, s => by simp [pyKey]
  | .bool false, s => by simp [pyKey]
  | .str t, s => by simp [pyKey]
  | .num n, s => by simp [pyKey]
  | .arr xs, s => by simp [pyKey]
  | .obj kvs, s => by simp [pyKey]

theorem sget_sset_self {α : Type} (d : List (String × α)) (k : String) (v : α) :
    sget (sset d k v) k = some v := by
  induction d with
  | nil => simp [sset, sget]
  | cons p rest ih =>
    by_cases hp : p.1 = k
    · simp [sset, sget, hp]
    · simp [sset, sget, hp, ih]

theorem sget_sset_ne {α : Type} (d : List (String × α)) (k k' : String) (v : α)
    (h : k' ≠ k) : sget (sset d k' v) k = sget d k := by
  induction d with
  | nil => simp [sset, sget, h]
  | cons p rest ih =>
    by_cases hp : p.1 = k'
    · have hpk : ¬ p.1 = k := by rw [hp]; exact h
      simp [sset, sget, hp, hpk, h]
    · simp [sset, sget, hp, ih]

theorem attrLoop_get_of_not_written (al : List Json) (d : List (Json × Json)) (k : Json)
    (h : ∀ a ∈ al, ∀ kj, Json.item a "key" = .ok kj → pyKey kj ≠ pyKey k) :
    dictGet (attrLoop al d) k = dictGet d k := by
  induction al generalizing d with
  | nil => rfl
  | cons a rest ih =>
    have hrest : ∀ a' ∈ rest, ∀ kj, Json.item a' "key" = .ok kj → pyKey kj ≠ pyKey k :=
      fun a' ha' => h a' (List.mem_cons_of_mem a ha')
    cases hk : Json.item a "key" with
    | error e => simp [attrLoop, hk]
    | ok kj =>
      by_cases hdesc : kj = Json.str "description"
      · simp only [attrLoop, hk, if_pos hdesc]
        exact ih _ hrest
      · cases hv : Json.item a "value" with
        | error e => simp [attrLoop, hk, hdesc, hv]
        | ok v =>
          by_cases hh : kj.hashable = true
          · have hstep : attrLoop (a :: rest) d = attrLoop rest (dictSet d kj v) := by
              simp [attrLoop, hk, hdesc, hv, hh]
            rw [hstep, ih _ hrest]
            exact dictGet_set_ne d k kj v (h a (List.mem_cons_self a rest) kj hk)
          · have hstep : attrLoop (a :: rest) d = d := by
              simp [attrLoop, hk, hdesc, hv, hh]
            rw [hstep]

/-- The value the attribute-merge loop leaves under key `k`: the `value`
of the last well-formed entry whose `key` equals `k` (entries keyed
`description` never count), if any. -/
def lastWrite : List Json → Json → Option Json
  | [], _ => none
  | a :: rest, k =>
    match lastWrite rest k with
    | some v => some v
    | none =>
      match Json.item a "key", Json.item a "value" with
      | .ok kj, .ok v => if kj = k ∧ kj ≠ Json.str "description" then some v else none
      | _, _ => none

theorem attrLoop_get_lastWrite (al : List Json) (d : List (Json × Json)) (k : Json)
    (hwf : ∀ a ∈ al, ∃ s v, Json.item a "key" = .ok (Json.str s) ∧
      Json.item a "value" = .ok v) :
    (∀ v, lastWrite al k = some v → dictGet (attrLoop al d) k = some v) ∧
    (lastWrite al k = none → dictGet (attrLoop al d) k = dictGet d k) := by
  induction al generalizing d with
  | nil => exact ⟨fun v hv => by simp [lastWrite] at hv, fun _ => rfl⟩
  | cons a rest ih =>
    obtain ⟨s, v0, hkj, hv0⟩ := hwf a (List.mem_cons_self a rest)
    have hwfrest : ∀ a' ∈ rest, ∃ s v, Json.item a' "key" = .ok (Json.str s) ∧
        Json.item a' "value" = .ok v :=
      fun a' ha' => hwf a' (List.mem_cons_of_mem a ha')
    by_cases hdesc : Json.str s = Json.str "description"
    · have hstep : attrLoop (a :: rest) d = attrLoop rest d := by
        simp [attrLoop, hkj, hdesc]
      have hlw : lastWrite (a :: rest) k = lastWrite rest k := by
        cases hlr : lastWrite rest k with
        | some v => simp [lastWrite, hlr]
        | none => simp [lastWrite, hlr, hkj, hv0, hdesc]
      rw [hstep, hlw]
      exact ih d hwfrest
    · have hstep : attrLoop (a :: rest) d = attrLoop rest (dictSet d (Json.str s) v0) := by
        simp [attrLoop, hkj, hdesc, hv0, Json.hashable]
      rw [hstep]
      cases hlr : lastWrite rest k with
      | some v =>
        have hlw : lastWrite (a :: rest) k = some v := by simp [lastWrite, hlr]
        rw [hlw]
        exact ⟨fun v' hv' => by
          obtain rfl : v = v' := by injection hv'
          exact (ih _ hwfrest).1 v hlr,
          fun hcontra => by simp at hcontra⟩
      | none =>
        have hrec := (ih (dictSet d (Json.str s) v0) hwfrest).2 hlr
        by_cases hkk : Json.str s = k
        · have hdk : ¬ k = Json.str "description" := hkk ▸ hdesc
          have hlw : lastWrite (a :: rest) k = some v0 := by
            simp [lastWrite, hlr, hkj, hv0, hkk, hdk]
          rw [hlw]
          refine ⟨fun v' hv' => ?_, fun hcontra => by simp at hcontra⟩
          obtain rfl : v0 = v' := by injection hv'
          rw [hrec, ← hkk, dictGet_set_self]
        · have hlw : lastWrite (a :: rest) k = none := by
            simp [lastWrite, hlr, hkj, hv0, hkk]
          rw [hlw]
          refine ⟨fun v' hv' => by simp at hv', fun _ => ?_⟩
          rw [hrec, dictGet_set_ne d k (Json.str s) v0
            (fun heq => hkk ((pyKey_eq_str_iff k s).mp heq.symm).symm)]

theorem attrLoop_get_description (al : List Json) (d : List (Json × Json)) :
    dictGet (attrLoop al d) (Json.str "description") = dictGet d (Json.str "description") := by
  induction al generalizing d with
  | nil => rfl
  | cons a rest ih =>
    cases hk : Json.item a "key" with
    | error e => simp [attrLoop, hk]
    | ok kj =>
      by_cases hdesc : kj = Json.str "description"
      · simp only [attrLoop, hk, if_pos hdesc]
        exact ih d
      · cases hv : Json.item a "value" with
        | error e => simp [attrLoop, hk, hdesc, hv]
        | ok v =>
          by_cases hh : kj.hashable = true
          · have hstep : attrLoop (a :: rest) d = attrLoop rest (dictSet d kj v) := by
              simp [attrLoop, hk, hdesc, hv, hh]
            rw [hstep, ih _, dictGet_set_ne d (Json.str "description") kj v
              (fun heq => hdesc ((pyKey_eq_str_iff kj "description").mp heq))]
          · have hstep : attrLoop (a :: rest) d = d := by
              simp [attrLoop, hk, hdesc, hv, hh]
            rw [hstep]

theorem required_product_data_eq (rd : Json) (link : String)
    (b desc imgs nm bn ist : Json)
    (hb : Json.getD rd "brand" (.obj []) = .ok b)
    (hdesc : Json.getD b "description" .null = .ok desc)
    (himg : Json.item rd "images" = .ok imgs)
    (hnm : Json.item rd "name" = .ok nm)
    (hbn : Json.getD b "name" .null = .ok bn)
    (hist : Json.getD rd "inStock" .null = .ok ist) :
    required_product_data rd link =
      stockPhase rd ist
        [(.str "url", .str link), (.str "description", desc), (.str "images", imgs),
         (.str "name", nm), (.str "brand_name", bn), (.str "in_stock", ist)] := by
  simp only [required_product_data, hb, hdesc, himg, hnm, hbn, hist]
  rfl

theorem stockPhase_gate_false (rd ist : Json) (d : List (Json × Json))
    (h : ist.truthy = false) : stockPhase rd ist d = attrPhase rd d := by
  simp [stockPhase, h]

theorem stockPhase_no_variants (rd ist av : Json) (d : List (Json × Json))
    (hav : Json.getD rd "allVariants" .null = .ok av) (h : av.truthy = false) :
    stockPhase rd ist d = attrPhase rd d := by
  by_cases hist : ist.truthy
  · simp [stockPhase, hist, hav, h]
  · simp [stockPhase, hist]

theorem stockPhase_stock (rd ist av av2 v0 bc pr sz vl : Json) (d : List (Json × Json))
    (hist : ist.truthy = true)
    (hav : Json.getD rd "allVariants" .null = .ok av) (havt : av.truthy = true)
    (hav2 : Json.item rd "allVariants" = .ok av2)
    (h0 : Json.get0 av2 = .ok v0)
    (hbc : Json.item v0 "barcode" = .ok bc)
    (hpr : Json.item v0 "price" = .ok pr)
    (hsz : Json.getD v0 "size" .null = .ok sz)
    (hvl : Json.getD v0 "value" .null = .ok vl) :
    stockPhase rd ist d =
      attrPhase rd
        (dictSet (dictSet (dictSet d (.str "barcode") (.str (pyStr bc)))
          (.str "price") pr) (.str "size") (if sz.truthy then sz else vl)) := by
  by_cases hszt : sz.truthy
  · simp [stockPhase, hist, hav, havt, hav2, h0, hbc, hpr, hsz, hszt]
  · simp [stockPhase, hist, hav, havt, hav2, h0, hbc, hpr, hsz, hszt, hvl]

theorem attrPhase_eq (rd : Json) (attrs : Json) (al : List Json) (d : List (Json × Json))
    (hattrs : Json.getD rd "attributes" (.arr []) = .ok attrs)
    (hiter : pyIter attrs = .ok al) :
    attrPhase rd d = attrLoop al d := by
  simp [attrPhase, hattrs, hiter]

/-- Concrete record for refuting C3: not in stock, non-empty variants,
and an attributes entry keyed `price`. -/
def rdC3 : Json :=
  Json.obj [("images", .arr []), ("name", .str "N"), ("inStock", .bool false),
    ("allVariants", .arr [Json.obj [("barcode", .num 1), ("price", .num 2),
      ("size", .str "M")]]),
    ("attributes", .arr [Json.obj [("key", .str "price"), ("value", .str "9")]])]

/-- C3 counterexample: this record has `inStock = false` and a present,
non-empty `allVariants`, yet the normalized output does contain a
`price` entry (value `"9"`, carried in by the attribute merge), so
"when inStock is false, none of barcode, price, or size appear in the
output" is false of the code. -/
theorem C3_counterexample :
    Json.getD rdC3 "inStock" .null = .ok (.bool false) ∧
    (Json.getD rdC3 "allVariants" .null).map Json.truthy = .ok true ∧
    dictGet (required_product_data rdC3 "L") (.str "price") = some (.str "9") :=
  ⟨rfl, rfl, rfl⟩

/-- C3 (amended): for a record whose pre-stock fields normalize without
raising, whose stock gate is off (in-stock flag falsy, or variant data
falsy), and whose attributes entries carry none of the keys `barcode`,
`price`, `size`, the normalizer populates none of the stock-dependent
fields `barcode`, `price`, `size`; an attributes entry bearing one of
those keys is the only way they can appear with the gate off. -/
theorem C3_stock_fields_gated (rd : Json) (link : String)
    (b desc imgs nm bn ist attrs : Json) (al : List Json)
    (hb : Json.getD rd "brand" (.obj []) = .ok b)
    (hdesc : Json.getD b "description" .null = .ok desc)
    (himg : Json.item rd "images" = .ok imgs)
    (hnm : Json.item rd "name" = .ok nm)
    (hbn : Json.getD b "name" .null = .ok bn)
    (hist : Json.getD rd "inStock" .null = .ok ist)
    (hgate : ist.truthy = false ∨
      ∃ av, Json.getD rd "allVariants" .null = .ok av ∧ av.truthy = false)
    (hattrs : Json.getD rd "attributes" (.arr []) = .ok attrs)
    (hiter : pyIter attrs = .ok al)
    (hno : ∀ a ∈ al, ∀ kj, Json.item a "key" = .ok kj →
      kj ≠ .str "barcode" ∧ kj ≠ .str "price" ∧ kj ≠ .str "size") :
    dictGet (required_product_data rd link) (.str "barcode") = none ∧
    dictGet (required_product_data rd link) (.str "price") = none ∧
    dictGet (required_product_data rd link) (.str "size") = none := by
  have hre := required_product_data_eq rd link b desc imgs nm bn ist hb hdesc himg hnm hbn hist
  have hsp : stockPhase rd ist
      [(.str "url", .str link), (.str "description", desc), (.str "images", imgs),
       (.str "name", nm), (.str "brand_name", bn), (.str "in_stock", ist)] =
      attrPhase rd
      [(.str "url", .str link), (.str "description", desc), (.str "images", imgs),
       (.str "name", nm), (.str "brand_name", bn), (.str "in_stock", ist)] := by
    rcases hgate with hg | ⟨av, hav, havf⟩
    · exact stockPhase_gate_false rd ist _ hg
    · exact stockPhase_no_variants rd ist av _ hav havf
  rw [hre, hsp, attrPhase_eq rd attrs al _ hattrs hiter]
  refine ⟨?_, ?_, ?_⟩
  · rw [attrLoop_get_of_not_written al _ (Json.str "barcode") (fun a ha kj hkj heq =>
      (hno a ha kj hkj).1 ((pyKey_eq_str_iff kj "barcode").mp heq))]
    rfl
  · rw [attrLoop_get_of_not_written al _ (Json.str "price") (fun a ha kj hkj heq =>
      (hno a ha kj hkj).2.1 ((pyKey_eq_str_iff kj "price").mp heq))]
    rfl
  · rw [attrLoop_get_of_not_written al _ (Json.str "size") (fun a ha kj hkj heq =>
      (hno a ha kj hkj).2.2 ((pyKey_eq_str_iff kj "size").mp heq))]
    rfl

theorem C3_witness :
    dictGet (required_product_data (Json.obj [("images", .arr []), ("name", .str "N")]) "L")
      (.str "barcode") = none ∧
    dictGet (required_product_data (Json.obj [("images", .arr []), ("name", .str "N")]) "L")
      (.str "price") = none ∧
    dictGet (required_product_data (Json.obj [("images", .arr []), ("name", .str "N")]) "L")
      (.str "size") = none := by
  exact C3_stock_fields_gated (Json.obj [("images", .arr []), ("name", .str "N")]) "L"
    (.obj []) .null (.arr []) (.str "N") .null .null (.arr []) []
    rfl rfl rfl rfl rfl rfl (Or.inl rfl) rfl rfl
    (fun a ha => absurd ha (List.not_mem_nil a))

/-- C6 counterexample: a record that has `name` but is missing `images`:
the `KeyError` on `response_dict['images']` ends the whole `try` block,
so the returned dict stops at `description` and the present `name`
field is NOT populated — one bad field does abort the normalization of
the remaining fields (only the fields read with `.get` degrade
individually). -/
theorem C6_counterexample :
    Json.item (Json.obj [("name", Json.str "N")]) "name" = .ok (.str "N") ∧
    required_product_data (Json.obj [("name", Json.str "N")]) "L" =
      [(.str "url", .str "L"), (.str "description", .null)] :=
  ⟨rfl, rfl⟩

/-- C6 (amended): the specific spec instance does hold: a record missing
the `attributes` key (so `get('attributes', [])` yields `[]`), with
`images` and `name` present, a well-behaved `brand` value and the stock
gate off, normalizes without raising to exactly the six base fields —
`attributes` contributes nothing and every other present field is
populated.  (The general "a missing field never aborts the rest" is
refuted by the counterexample: only `description`, `brand_name`,
`in_stock` and `attributes` are read fault-tolerantly with `.get`;
missing `images` or `name` aborts the remaining assignments.) -/
theorem C6_missing_attributes_tolerated (rd : Json) (link : String)
    (b desc imgs nm bn ist : Json)
    (hb : Json.getD rd "brand" (.obj []) = .ok b)
    (hdesc : Json.getD b "description" .null = .ok desc)
    (himg : Json.item rd "images" = .ok imgs)
    (hnm : Json.item rd "name" = .ok nm)
    (hbn : Json.getD b "name" .null = .ok bn)
    (hist : Json.getD rd "inStock" .null = .ok ist)
    (histf : ist.truthy = false)
    (hattrs : Json.getD rd "attributes" (.arr []) = .ok (.arr [])) :
    required_product_data rd link =
      [(.str "url", .str link), (.str "description", desc), (.str "images", imgs),
       (.str "name", nm), (.str "brand_name", bn), (.str "in_stock", ist)] := by
  rw [required_product_data_eq rd link b desc imgs nm bn ist hb hdesc himg hnm hbn hist,
    stockPhase_gate_false rd ist _ histf,
    attrPhase_eq rd (.arr []) [] _ hattrs rfl]
  rfl

theorem C6_witness :
    required_product_data (Json.obj [("images", .arr [Json.str "i"]), ("name", .str "N")]) "L" =
      [(.str "url", .str "L"), (.str "description", .null), (.str "images", .arr [Json.str "i"]),
       (.str "name", .str "N"), (.str "brand_name", .null), (.str "in_stock", .null)] :=
  C6_missing_attributes_tolerated _ "L" (.obj []) .null (.arr [Json.str "i"]) (.str "N")
    .null .null rfl rfl rfl rfl rfl rfl rfl rfl

/-- First variant of the concrete record refuting C7: its `size` key is
present but maps to the empty (falsy) string, its `value` key holds "M". -/
def vC7 : Json :=
  Json.obj [("barcode", .num 1), ("price", .num 5), ("size", .str ""), ("value", .str "M")]

/-- Concrete in-stock record refuting C7. -/
def rdC7 : Json :=
  Json.obj [("images", .arr []), ("name", .str "N"), ("inStock", .bool true),
    ("allVariants", .arr [vC7])]

/-- C7 counterexample: in this record the first variant has BOTH a
`size` key (mapping to the falsy `""`) and a `value` key (mapping to
`"M"`), yet the normalized `size` is `"M"`: Python's
`get('size') or get('value')` falls through on any falsy `size` value,
not only on an absent `size` key, so "whenever both keys exist, the
'size' key's value is the one used" is false of the code. -/
theorem C7_counterexample :
    Json.item vC7 "size" = .ok (.str "") ∧
    Json.item vC7 "value" = .ok (.str "M") ∧
    dictGet (required_product_data rdC7 "L") (.str "size") = some (.str "M") :=
  ⟨rfl, rfl, rfl⟩

/-- C7 (amended): for an in-stock record with non-empty variant data
(and attribute entries not keyed `size`), the normalized `size` is the
first variant's `size` value when that value is truthy, and the first
variant's `value` value otherwise — i.e. the `size` key wins exactly
when it exists with a truthy value, not merely when it exists. -/
theorem C7_size_prefers_truthy_size (rd : Json) (link : String)
    (b desc imgs nm bn ist av av2 v0 bc pr sz vl attrs : Json) (al : List Json)
    (hb : Json.getD rd "brand" (.obj []) = .ok b)
    (hdesc : Json.getD b "description" .null = .ok desc)
    (himg : Json.item rd "images" = .ok imgs)
    (hnm : Json.item rd "name" = .ok nm)
    (hbn : Json.getD b "name" .null = .ok bn)
    (hist : Json.getD rd "inStock" .null = .ok ist)
    (histt : ist.truthy = true)
    (hav : Json.getD rd "allVariants" .null = .ok av)
    (havt : av.truthy = true)
    (hav2 : Json.item rd "allVariants" = .ok av2)
    (h0 : Json.get0 av2 = .ok v0)
    (hbc : Json.item v0 "barcode" = .ok bc)
    (hpr : Json.item v0 "price" = .ok pr)
    (hsz : Json.getD v0 "size" .null = .ok sz)
    (hvl : Json.getD v0 "value" .null = .ok vl)
    (hattrs : Json.getD rd "attributes" (.arr []) = .ok attrs)
    (hiter : pyIter attrs = .ok al)
    (hno : ∀ a ∈ al, ∀ kj, Json.item a "key" = .ok kj → kj ≠ .str "size") :
    dictGet (required_product_data rd link) (.str "size") =
      some (if sz.truthy then sz else vl) := by
  rw [required_product_data_eq rd link b desc imgs nm bn ist hb hdesc himg hnm hbn hist,
    stockPhase_stock rd ist av av2 v0 bc pr sz vl _ histt hav havt hav2 h0 hbc hpr hsz hvl,
    attrPhase_eq rd attrs al _ hattrs hiter,
    attrLoop_get_of_not_written al _ (Json.str "size") (fun a ha kj hkj heq =>
      hno a ha kj hkj ((pyKey_eq_str_iff kj "size").mp heq)),
    dictGet_set_self]

theorem C7_witness :
    dictGet (required_product_data (Json.obj [("images", .arr []), ("name", .str "N"),
        ("inStock", .bool true), ("allVariants", .arr [Json.obj [("barcode", .num 1),
        ("price", .num 5), ("size", .str "M"), ("value", .str "V")]])]) "L")
      (.str "size") = some (.str "M") :=
  C7_size_prefers_truthy_size
    (Json.obj [("images", .arr []), ("name", .str "N"), ("inStock", .bool true),
      ("allVariants", .arr [Json.obj [("barcode", .num 1), ("price", .num 5),
        ("size", .str "M"), ("value", .str "V")]])])
    "L" (.obj []) .null (.arr []) (.str "N") .null (.bool true)
    (.arr [Json.obj [("barcode", .num 1), ("price", .num 5), ("size", .str "M"),
      ("value", .str "V")]])
    (.arr [Json.obj [("barcode", .num 1), ("price", .num 5), ("size", .str "M"),
      ("value", .str "V")]])
    (Json.obj [("barcode", .num 1), ("price", .num 5), ("size", .str "M"),
      ("value", .str "V")])
    (.num 1) (.num 5) (.str "M") (.str "V") (.arr []) []
    rfl rfl rfl rfl rfl rfl rfl rfl rfl rfl rfl rfl rfl rfl rfl rfl rfl
    (fun a ha => absurd ha (List.not_mem_nil a))

/-- Concrete record for refuting C9: its attributes list starts with an
entry whose `key` is a JSON array — an unhashable Python dict key —
followed by a well-formed entry keyed `url`. -/
def rdC9 : Json :=
  Json.obj [("images", .arr []), ("name", .str "N"),
    ("attributes", .arr [Json.obj [("key", .arr [.num 1]), ("value", .str "X")],
      Json.obj [("key", .str "url"), ("value", .str "FINAL")]])]

/-- C9 counterexample: the attributes list of `rdC9` contains a
well-formed entry with key `url` (≠ `description`) and value `"FINAL"`,
yet the normalized output's `url` is still the work item's link `"L"`:
the earlier entry's array-valued `key` makes
`required_data[key] = value` raise `TypeError`, the `except` swallows
it, and the merge stops before the `url` entry — so NOT every
attributes entry with key ≠ `description` is written into the output. -/
theorem C9_counterexample :
    Json.item (Json.obj [("key", .str "url"), ("value", .str "FINAL")]) "key" =
      .ok (.str "url") ∧
    (Json.arr [.num 1]).hashable = false ∧
    dictGet (required_product_data rdC9 "L") (.str "url") = some (.str "L") :=
  ⟨rfl, rfl, rfl⟩

/-- C9 (amended): for a record that reaches the attribute-merge loop
(pre-stock fields normalize, stock gate off) whose attributes entries
all carry string (hence hashable) keys and present values, every key
other than `description` carried by some attributes entry ends up in
the output bound to the value of the LAST entry with that key —
including keys like `url`, `name`, `images`, `price`, `in_stock` that
were already populated, which are thereby overwritten (so the output's
`url` can differ from the work item's link); while the `description`
field produced from `brand.description` is never overwritten by the
merge, entries keyed `description` being skipped.  (Without the
string-key restriction the property fails: an unhashable key raises
`TypeError` and aborts the merge — the counterexample — and Python's
dict-key equality identifies `True`/`False` with `1`/`0`, which the
model's `pyKey` mirrors.) -/
theorem C9_attribute_merge_overwrites (rd : Json) (link : String)
    (b desc imgs nm bn ist attrs k v : Json) (al : List Json)
    (hb : Json.getD rd "brand" (.obj []) = .ok b)
    (hdesc : Json.getD b "description" .null = .ok desc)
    (himg : Json.item rd "images" = .ok imgs)
    (hnm : Json.item rd "name" = .ok nm)
    (hbn : Json.getD b "name" .null = .ok bn)
    (hist : Json.getD rd "inStock" .null = .ok ist)
    (histf : ist.truthy = false)
    (hattrs : Json.getD rd "attributes" (.arr []) = .ok attrs)
    (hiter : pyIter attrs = .ok al)
    (hwf : ∀ a ∈ al, ∃ s v', Json.item a "key" = .ok (Json.str s) ∧
      Json.item a "value" = .ok v')
    (hlast : lastWrite al k = some v) :
    dictGet (required_product_data rd link) k = some v ∧
    dictGet (required_product_data rd link) (Json.str "description") = some desc := by
  rw [required_product_data_eq rd link b desc imgs nm bn ist hb hdesc himg hnm hbn hist,
    stockPhase_gate_false rd ist _ histf,
    attrPhase_eq rd attrs al _ hattrs hiter]
  constructor
  · exact (attrLoop_get_lastWrite al _ k hwf).1 v hlast
  · rw [attrLoop_get_description al _]
    rfl

theorem C9_witness :
    dictGet (required_product_data (Json.obj [("images", .arr []), ("name", .str "N"),
        ("attributes", .arr [Json.obj [("key", .str "url"), ("value", .str "OTHER")],
          Json.obj [("key", .str "url"), ("value", .str "FINAL")]])]) "L")
      (Json.str "url") = some (.str "FINAL") ∧
    dictGet (required_product_data (Json.obj [("images", .arr []), ("name", .str "N"),
        ("attributes", .arr [Json.obj [("key", .str "url"), ("value", .str "OTHER")],
          Json.obj [("key", .str "url"), ("value", .str "FINAL")]])]) "L")
      (Json.str "description") = some .null :=
  C9_attribute_merge_overwrites
    (Json.obj [("images", .arr []), ("name", .str "N"),
      ("attributes", .arr [Json.obj [("key", .str "url"), ("value", .str "OTHER")],
        Json.obj [("key", .str "url"), ("value", .str "FINAL")]])])
    "L" (.obj []) .null (.arr []) (.str "N") .null .null
    (.arr [Json.obj [("key", .str "url"), ("value", .str "OTHER")],
      Json.obj [("key", .str "url"), ("value", .str "FINAL")]])
    (.str "url") (.str "FINAL")
    [Json.obj [("key", .str "url"), ("value", .str "OTHER")],
      Json.obj [("key", .str "url"), ("value", .str "FINAL")]]
    rfl rfl rfl rfl rfl rfl rfl rfl rfl
    (by
      intro a ha
      rcases List.mem_cons.mp ha with rfl | ha
      · exact ⟨"url", .str "OTHER", rfl, rfl⟩
      · rcases List.mem_cons.mp ha with rfl | ha
        · exact ⟨"url", .str "FINAL", rfl, rfl⟩
        · cases ha)
    rfl

/-- One worker's loop from `multi_threaded_scraper`
(selenium_scraper.py lines 158-170).  `items` is the sequence of URLs
this worker dequeues from the shared queue (`get_nowait` until empty);
for each URL a successful `worker.scrape` stores its data in the
worker's `results` dict under the URL, while an exception from
`scrape` is caught, printed, and nothing is stored for that URL. -/
def worker_task {α : Type} (scrape : String → Except Unit α) :
    List String → List (String × α) → List (String × α)
  | [], results => results
  | url :: rest, results =>
    match scrape url with
    | .ok data => worker_task scrape rest (sset results url data)
    | .error _ => worker_task scrape rest results

/-- Python `all_results.update(data)`: replay the entries of `data`
into the accumulator in insertion order. -/
def dictUpdate {α : Type} : List (String × α) → List (String × α) → List (String × α)
  | acc, [] => acc
  | acc, p :: ps => dictUpdate (sset acc p.1 p.2) ps

/-- The `as_completed` merge loop of `multi_threaded_scraper`: fold the
per-worker result dicts into `all_results` in completion order. -/
def gather {α : Type} (scrape : String → Except Unit α) :
    List (List String) → List (String × α) → List (String × α)
  | [], acc => acc
  | w :: ws, acc => gather scrape ws (dictUpdate acc (worker_task scrape w []))

/-- `multi_threaded_scraper` from selenium_scraper.py (lines 149-204),
with the browser workers abstracted into a `scrape` oracle and the
nondeterministic queue interleaving into `schedule`: the list, per
worker, of the URLs that worker dequeued, in completion order.  The
returned flag records whether the JSON artifact was written: the code
writes `required_product_data_turkish.json` only in the `else` branch
of `if not all_results`, i.e. only when the merged dict is non-empty
(an empty merge only logs `No data scraped`). -/
def multi_threaded_scraper {α : Type} (scrape : String → Except Unit α)
    (schedule : List (List String)) : List (String × α) × Bool :=
  let all_results := gather scrape schedule []
  (all_results, !all_results.isEmpty)

/-- `multi_runner` from trendyol_sitemap.py (lines 173-206): every link
is submitted once; `product_data` is the list of one dict per link,
`{'link', 'product_id', 'response'}` — built by `thread.result()`,
which re-raises the first helper exception and aborts the whole run. -/
def multi_runner (fetch : String → Nat × Json) :
    List String → Except Unit (List (String × Option String × Json))
  | [] => .ok []
  | link :: rest =>
    match get_product_data_from_link fetch link with
    | .error e => .error e
    | .ok r =>
      match multi_runner fetch rest with
      | .error e => .error e
      | .ok pd => .ok ((link, get_product_id link, r) :: pd)

theorem sget_worker_task {α : Type} (scrape : String → Except Unit α) (items : List String)
    (acc : List (String × α)) (u : String) :
    sget (worker_task scrape items acc) u =
      if u ∈ items ∧ ((scrape u).toOption).isSome then (scrape u).toOption
      else sget acc u := by
  induction items generalizing acc with
  | nil => simp [worker_task]
  | cons x rest ih =>
    cases hx : scrape x with
    | ok data =>
      rw [worker_task, hx]
      rw [ih]
      by_cases hmem : u ∈ rest ∧ ((scrape u).toOption).isSome
      · rw [if_pos hmem, if_pos ⟨List.mem_cons_of_mem x hmem.1, hmem.2⟩]
      · rw [if_neg hmem]
        by_cases hux : u = x
        · subst hux
          rw [sget_sset_self, hx]
          rw [if_pos ⟨List.mem_cons_self u rest, rfl⟩]
          rfl
        · rw [sget_sset_ne acc u x data (fun h => hux h.symm)]
          have : ¬ (u ∈ x :: rest ∧ ((scrape u).toOption).isSome) := by
            rintro ⟨hm, hs⟩
            rcases List.mem_cons.mp hm with rfl | hm
            · exact hux rfl
            · exact hmem ⟨hm, hs⟩
          rw [if_neg this]
    | error e =>
      rw [worker_task, hx]
      rw [ih]
      by_cases hmem : u ∈ rest ∧ ((scrape u).toOption).isSome
      · rw [if_pos hmem, if_pos ⟨List.mem_cons_of_mem x hmem.1, hmem.2⟩]
      · have : ¬ (u ∈ x :: rest ∧ ((scrape u).toOption).isSome) := by
          rintro ⟨hm, hs⟩
          rcases List.mem_cons.mp hm with rfl | hm
          · rw [hx] at hs
            simp [Except.toOption] at hs
          · exact hmem ⟨hm, hs⟩
        rw [if_neg hmem, if_neg this]

theorem sget_eq_none_of_not_mem {α : Type} (d : List (String × α)) (u : String)
    (h : u ∉ d.map Prod.fst) : sget d u = none := by
  induction d with
  | nil => rfl
  | cons p rest ih =>
    simp only [List.map_cons, List.mem_cons, not_or] at h
    simp only [sget]
    rw [if_neg (fun he => h.1 he.symm)]
    exact ih h.2

theorem mem_keys_sset {α : Type} (d : List (String × α)) (k u : String) (v : α) :
    u ∈ (sset d k v).map Prod.fst ↔ u ∈ d.map Prod.fst ∨ u = k := by
  induction d with
  | nil => simp [sset]
  | cons p rest ih =>
    simp only [sset]
    by_cases hp : p.1 = k
    · rw [if_pos hp]
      simp only [List.map_cons, List.mem_cons]
      rw [hp]
      tauto
    · rw [if_neg hp]
      simp only [List.map_cons, List.mem_cons, ih]
      tauto

theorem nodup_keys_sset {α : Type} (d : List (String × α)) (k : String) (v : α)
    (h : (d.map Prod.fst).Nodup) : ((sset d k v).map Prod.fst).Nodup := by
  induction d with
  | nil => simp [sset]
  | cons p rest ih =>
    simp only [List.map_cons, List.nodup_cons] at h
    by_cases hp : p.1 = k
    · simp only [sset, if_pos hp, List.map_cons, List.nodup_cons]
      exact ⟨by rw [← hp]; exact h.1, h.2⟩
    · simp only [sset, if_neg hp, List.map_cons, List.nodup_cons]
      refine ⟨fun hmem => ?_, ih h.2⟩
      rcases (mem_keys_sset rest k p.1 v).mp hmem with hm | he
      · exact h.1 hm
      · exact hp he

theorem nodup_keys_worker_task {α : Type} (scrape : String → Except Unit α)
    (items : List String) (acc : List (String × α))
    (h : (acc.map Prod.fst).Nodup) :
    ((worker_task scrape items acc).map Prod.fst).Nodup := by
  induction items generalizing acc with
  | nil => exact h
  | cons x rest ih =>
    cases hx : scrape x with
    | ok data =>
      rw [worker_task, hx]
      exact ih _ (nodup_keys_sset acc x data h)
    | error e =>
      rw [worker_task, hx]
      exact ih _ h

theorem nodup_keys_dictUpdate {α : Type} (ps acc : List (String × α))
    (h : (acc.map Prod.fst).Nodup) :
    ((dictUpdate acc ps).map Prod.fst).Nodup := by
  induction ps generalizing acc with
  | nil => exact h
  | cons p ps ih =>
    rw [dictUpdate]
    exact ih _ (nodup_keys_sset acc p.1 p.2 h)

theorem nodup_keys_gather {α : Type} (scrape : String → Except Unit α)
    (ws : List (List String)) (acc : List (String × α))
    (h : (acc.map Prod.fst).Nodup) :
    ((gather scrape ws acc).map Prod.fst).Nodup := by
  induction ws generalizing acc with
  | nil => exact h
  | cons w ws ih =>
    rw [gather]
    exact ih _ (nodup_keys_dictUpdate _ _ h)

theorem sget_dictUpdate {α : Type} (ps acc : List (String × α)) (u : String)
    (hnd : (ps.map Prod.fst).Nodup) :
    sget (dictUpdate acc ps) u =
      match sget ps u with
      | some v => some v
      | none => sget acc u := by
  induction ps generalizing acc with
  | nil => rfl
  | cons p ps ih =>
    simp only [List.map_cons, List.nodup_cons] at hnd
    rw [dictUpdate, ih _ hnd.2]
    by_cases hup : p.1 = u
    · rw [sget_eq_none_of_not_mem ps u (hup ▸ hnd.1)]
      simp only [sget, if_pos hup]
      rw [← hup, sget_sset_self]
    · rw [sget_sset_ne acc u p.1 p.2 hup]
      simp only [sget, if_neg hup]

theorem sget_gather {α : Type} (scrape : String → Except Unit α)
    (ws : List (List String)) (acc : List (String × α)) (u : String) :
    sget (gather scrape ws acc) u =
      if u ∈ ws.flatten ∧ ((scrape u).toOption).isSome then (scrape u).toOption
      else sget acc u := by
  induction ws generalizing acc with
  | nil => simp [gather]
  | cons w ws ih =>
    rw [gather, ih]
    rw [sget_dictUpdate _ _ _ (nodup_keys_worker_task scrape w [] List.nodup_nil)]
    rw [sget_worker_task scrape w [] u]
    by_cases h1 : u ∈ ws.flatten ∧ ((scrape u).toOption).isSome
    · rw [if_pos h1,
        if_pos ⟨by rw [List.flatten_cons]; exact List.mem_append_right w h1.1, h1.2⟩]
    · rw [if_neg h1]
      by_cases h2 : u ∈ w ∧ ((scrape u).toOption).isSome
      · rw [if_pos h2,
          if_pos ⟨by rw [List.flatten_cons]; exact List.mem_append_left _ h2.1, h2.2⟩]
        obtain ⟨x, hx⟩ := Option.isSome_iff_exists.mp h2.2
        rw [hx]
      · rw [if_neg h2]
        have hno : ¬ (u ∈ (w :: ws).flatten ∧ ((scrape u).toOption).isSome) := by
          rintro ⟨hm, hs⟩
          rw [List.flatten_cons] at hm
          rcases List.mem_append.mp hm with hm | hm
          · exact h2 ⟨hm, hs⟩
          · exact h1 ⟨hm, hs⟩
        rw [if_neg hno]
        rfl

/-- C1 counterexample: a completed single-worker run over the one-item
queue `["u"]` whose scrape raises: `worker_task` catches the exception
and records nothing, the merge loop completes normally, and the final
aggregate is empty — the input item `"u"` is missing from the aggregate
of a completed (non-aborted) run, refuting "no input item is missing
from the aggregate of a completed run". -/
theorem C1_counterexample :
    "u" ∈ [["u"]].flatten ∧
    multi_threaded_scraper (fun _ : String => (Except.error () : Except Unit Unit)) [["u"]] =
      ([], false) :=
  ⟨by simp, rfl⟩

theorem worker_task_skip {α : Type} (scrape : String → Except Unit α) (u : String)
    (hu : scrape u = .error ()) :
    ∀ (xs ys : List String) (acc : List (String × α)),
      worker_task scrape (xs ++ u :: ys) acc = worker_task scrape (xs ++ ys) acc := by
  intro xs
  induction xs with
  | nil =>
    intro ys acc
    simp only [List.nil_append]
    rw [worker_task, hu]
  | cons x xs ih =>
    intro ys acc
    simp only [List.cons_append]
    cases hx : scrape x with
    | ok d =>
      rw [worker_task, hx, worker_task, hx]
      exact ih ys (sset acc x d)
    | error e =>
      rw [worker_task, hx, worker_task, hx]
      exact ih ys acc

/-- C1 (amended): after a completed run, the aggregate of
`multi_threaded_scraper` contains exactly one entry for every input
item whose scrape did NOT raise (bound to that scrape's record), and NO
entry for an input item whose scrape raised — exception items are
silently dropped, not recorded as failure sentinels; keys are never
duplicated.  For `multi_runner` (which has no per-item catch), a run
that completes without aborting has exactly one entry per link, in
order. -/
theorem C1_aggregate_contents {α : Type} (scrape : String → Except Unit α)
    (schedule : List (List String)) (input : List String)
    (hmem : ∀ u, u ∈ schedule.flatten ↔ u ∈ input) :
    (∀ u, sget (multi_threaded_scraper scrape schedule).1 u =
        if u ∈ input ∧ ((scrape u).toOption).isSome then (scrape u).toOption else none) ∧
    ((multi_threaded_scraper scrape schedule).1.map Prod.fst).Nodup ∧
    (∀ (fetch : String → Nat × Json) (links : List String)
        (pd : List (String × Option String × Json)),
      multi_runner fetch links = .ok pd → pd.map (fun t => t.1) = links) := by
  refine ⟨fun u => ?_, ?_, ?_⟩
  · show sget (gather scrape schedule []) u = _
    rw [sget_gather]
    by_cases h : u ∈ schedule.flatten ∧ ((scrape u).toOption).isSome
    · rw [if_pos h, if_pos ⟨(hmem u).mp h.1, h.2⟩]
    · rw [if_neg h, if_neg (fun hc => h ⟨(hmem u).mpr hc.1, hc.2⟩)]
      rfl
  · exact nodup_keys_gather scrape schedule [] List.nodup_nil
  · intro fetch links
    induction links with
    | nil =>
      intro pd h
      rw [multi_runner] at h
      injection h with h2
      rw [← h2]
      rfl
    | cons link rest ih =>
      intro pd h
      rw [multi_runner] at h
      cases hg : get_product_data_from_link fetch link with
      | error e => rw [hg] at h; cases h
      | ok r =>
        rw [hg] at h
        cases hr : multi_runner fetch rest with
        | error e => rw [hr] at h; cases h
        | ok pd2 =>
          rw [hr] at h
          injection h with h2
          rw [← h2, List.map_cons, ih pd2 hr]

theorem C1_witness :
    sget (multi_threaded_scraper
        (fun u => if u = "bad" then (Except.error () : Except Unit Nat) else .ok 1)
        [["good"], ["bad"]]).1 "good" = some 1 ∧
    sget (multi_threaded_scraper
        (fun u => if u = "bad" then (Except.error () : Except Unit Nat) else .ok 1)
        [["good"], ["bad"]]).1 "bad" = none ∧
    ((multi_threaded_scraper
        (fun u => if u = "bad" then (Except.error () : Except Unit Nat) else .ok 1)
        [["good"], ["bad"]]).1.map Prod.fst).Nodup := by
  have h := C1_aggregate_contents
    (fun u => if u = "bad" then (Except.error () : Except Unit Nat) else .ok 1)
    [["good"], ["bad"]] ["good", "bad"] (fun u => Iff.rfl)
  refine ⟨?_, ?_, h.2.1⟩
  · rw [h.1 "good"]
    rfl
  · rw [h.1 "bad"]
    rfl

/-- C2 counterexample: one worker dequeues `"a"` then `"b"`; scraping
`"a"` raises and `"b"` succeeds.  The worker catches the exception and
keeps running (so `"b"` is processed and recorded), but it records NO
outcome at all for `"a"` — there is no failed-outcome entry, refuting
"records a failed outcome for that one item". -/
theorem C2_counterexample :
    (fun u => if u = "a" then (Except.error () : Except Unit Nat) else .ok 0) "a" =
      .error () ∧
    sget (worker_task (fun u => if u = "a" then (Except.error () : Except Unit Nat) else .ok 0)
      ["a", "b"] []) "a" = none ∧
    sget (worker_task (fun u => if u = "a" then (Except.error () : Except Unit Nat) else .ok 0)
      ["a", "b"] []) "b" = some 0 :=
  ⟨rfl, rfl, rfl⟩

/-- C2 (amended): an exception raised while scraping one dequeued item
is caught by that worker alone: the worker's run is exactly as if the
failing item had not been dequeued (so the pool keeps running and every
item dequeued after the failing one is still processed and recorded
with its record), but the failing item itself gets NO recorded outcome
— it is dropped, not stored as a failed entry. -/
theorem C2_exception_isolated {α : Type} (scrape : String → Except Unit α)
    (xs ys : List String) (u : String) (acc : List (String × α))
    (hu : scrape u = .error ()) :
    worker_task scrape (xs ++ u :: ys) acc = worker_task scrape (xs ++ ys) acc ∧
    (∀ v d, v ∈ ys → scrape v = .ok d →
      sget (worker_task scrape (xs ++ u :: ys) acc) v = some d) ∧
    sget (worker_task scrape (xs ++ u :: ys) []) u = none := by
  refine ⟨worker_task_skip scrape u hu xs ys acc, fun v d hv hvd => ?_, ?_⟩
  · rw [sget_worker_task,
      if_pos ⟨List.mem_append_right xs (List.mem_cons_of_mem u hv),
        by rw [hvd]; rfl⟩, hvd]
    rfl
  · rw [sget_worker_task,
      if_neg (fun hc => by rw [hu] at hc; simp [Except.toOption] at hc)]
    rfl

theorem C2_witness :
    sget (worker_task (fun v => if v = "x" then (Except.error () : Except Unit Nat) else .ok 7)
      (["w"] ++ "x" :: ["y"]) []) "y" = some 7 ∧
    sget (worker_task (fun v => if v = "x" then (Except.error () : Except Unit Nat) else .ok 7)
      (["w"] ++ "x" :: ["y"]) []) "x" = none := by
  have h := C2_exception_isolated
    (fun v => if v = "x" then (Except.error () : Except Unit Nat) else .ok 7)
    ["w"] ["y"] "x" [] rfl
  exact ⟨h.2.1 "y" 7 (by simp) rfl, h.2.2⟩

/-- C5 counterexample: a completed two-item run in which every scrape
raised: the merge is empty, the run completes and returns normally, but
the artifact flag is `false` — `required_product_data_turkish.json` is
written only in the `else` branch of `if not all_results`, so a
completed run with an empty aggregate produces NO output artifact,
refuting "a run that completes always produces the output artifact". -/
theorem C5_counterexample :
    multi_threaded_scraper (fun _ : String => (Except.error () : Except Unit Json))
      [["w1", "w2"]] = ([], false) :=
  rfl

/-- C5 (amended): a completed run of `multi_threaded_scraper` writes
the output artifact iff the aggregate is non-empty, i.e. iff at least
one dequeued item scraped successfully; an empty aggregate is only
logged as critical (`No data scraped`) and the function still returns
the aggregate normally rather than raising — which the totality of this
model witnesses. -/
theorem C5_artifact_iff_success {α : Type} (scrape : String → Except Unit α)
    (schedule : List (List String)) :
    (multi_threaded_scraper scrape schedule).2 = true ↔
      ∃ u ∈ schedule.flatten, ((scrape u).toOption).isSome = true := by
  show (!(gather scrape schedule []).isEmpty) = true ↔ _
  constructor
  · intro h
    cases hg : gather scrape schedule [] with
    | nil => rw [hg] at h; simp at h
    | cons p rest =>
      have hp : sget (gather scrape schedule []) p.1 = some p.2 := by
        rw [hg]; simp [sget]
      rw [sget_gather] at hp
      by_cases hc : p.1 ∈ schedule.flatten ∧ ((scrape p.1).toOption).isSome
      · exact ⟨p.1, hc.1, hc.2⟩
      · rw [if_neg hc] at hp
        simp [sget] at hp
  · rintro ⟨u, hu, hs⟩
    have hv : sget (gather scrape schedule []) u = (scrape u).toOption := by
      rw [sget_gather, if_pos ⟨hu, hs⟩]
    cases hg : gather scrape schedule [] with
    | cons p rest => rfl
    | nil =>
      rw [hg] at hv
      obtain ⟨x, hx⟩ := Option.isSome_iff_exists.mp hs
      rw [hx] at hv
      simp [sget] at hv

/-- The page loop of `get_links` from trendyol_sitemap.py (lines 19-36)
over the remaining sitemap counters: a 200 response is parsed (the
`ET.fromstring` + `child[0].text` walk is the `parse` oracle, whose
raise propagates out of `get_links`), any other status is skipped and
contributes nothing; parsed links are appended in page order. -/
def get_linksAux {β : Type} (fetch : Nat → Nat × β)
    (parse : β → Except Unit (List String)) :
    List Nat → List String → Except Unit (List String)
  | [], acc => .ok acc
  | c :: cs, acc =>
    if (fetch c).1 = 200 then
      match parse (fetch c).2 with
      | .error e => .error e
      | .ok ls => get_linksAux fetch parse cs (acc ++ ls)
    else get_linksAux fetch parse cs acc

/-- `get_links`: iterate the counters `range(1, 7)`. -/
def get_links {β : Type} (fetch : Nat → Nat × β)
    (parse : β → Except Unit (List String)) : Except Unit (List String) :=
  get_linksAux fetch parse [1, 2, 3, 4, 5, 6] []

/-- The page loop of `extract_urls` from selenium_scraper.py
(lines 17-52): the helper raises on any non-200 status and
`future.result()` re-raises it with no surrounding catch, aborting
discovery; a 200 body is parsed and links are collected up to the
1000-link cap, at which the function returns early. -/
def extract_urlsAux {β : Type} (fetch : Nat → Nat × β)
    (parse : β → Except Unit (List String)) :
    List Nat → List String → Except Unit (List String)
  | [], acc => .ok acc
  | c :: cs, acc =>
    if (fetch c).1 = 200 then
      match parse (fetch c).2 with
      | .error e => .error e
      | .ok ls =>
        if 1000 ≤ (acc ++ ls).length then .ok ((acc ++ ls).take 1000)
        else extract_urlsAux fetch parse cs (acc ++ ls)
    else .error ()

/-- `extract_urls`: the url list is built from `range(1, 2)`, i.e. the
single sitemap index 1. -/
def extract_urls {β : Type} (fetch : Nat → Nat × β)
    (parse : β → Except Unit (List String)) : Except Unit (List String) :=
  extract_urlsAux fetch parse [1] []

/-- C8 counterexample: `get_links` where every page fetch returns 200
and every page parses to one link except page 2, whose body fails to
parse: the parse exception propagates and `get_links` aborts with an
error instead of returning the items collected from pages 1, 3, 4, 5
and 6 — a parse failure for one index page does abort the discovery of
the remaining pages. -/
theorem C8_counterexample :
    get_links (fun c => (200, c))
      (fun b => if b = 2 then (Except.error () : Except Unit (List String))
        else .ok [toString b]) = .error () :=
  rfl

theorem get_linksAux_ok {β : Type} (fetch : Nat → Nat × β)
    (parse : β → Except Unit (List String)) (L : Nat → List String) :
    ∀ (cs : List Nat) (acc : List String),
      (∀ c ∈ cs, (fetch c).1 = 200 → parse (fetch c).2 = .ok (L c)) →
      get_linksAux fetch parse cs acc =
        .ok (acc ++ (cs.filter (fun c => (fetch c).1 == 200)).flatMap L) := by
  intro cs
  induction cs with
  | nil =>
    intro acc _
    simp [get_linksAux]
  | cons c cs ih =>
    intro acc hp
    by_cases h200 : (fetch c).1 = 200
    · rw [get_linksAux, if_pos h200, hp c (List.mem_cons_self c cs) h200]
      show get_linksAux fetch parse cs (acc ++ L c) = _
      rw [ih (acc ++ L c) (fun x hx hh => hp x (List.mem_cons_of_mem c hx) hh)]
      simp [List.filter_cons, h200, List.append_assoc]
    · rw [get_linksAux, if_neg h200,
        ih acc (fun x hx hh => hp x (List.mem_cons_of_mem c hx) hh)]
      simp [List.filter_cons, h200]

/-- C8 (amended): in `get_links` a non-200 index page contributes zero
items and does NOT abort discovery — when every page that answers 200
parses, the result is exactly the concatenation of the 200-pages'
links, in page order, the non-200 pages filtered out.  But a parse
failure aborts `get_links` (the counterexample), and in `extract_urls`
even a non-200 response raises and aborts discovery entirely. -/
theorem C8_index_page_failures {β γ : Type} (fetch : Nat → Nat × β)
    (parse : β → Except Unit (List String)) (L : Nat → List String)
    (fetch2 : Nat → Nat × γ) (parse2 : γ → Except Unit (List String))
    (hp : ∀ c ∈ [1, 2, 3, 4, 5, 6], (fetch c).1 = 200 → parse (fetch c).2 = .ok (L c))
    (h404 : (fetch2 1).1 ≠ 200) :
    get_links fetch parse =
      .ok (([1, 2, 3, 4, 5, 6].filter (fun c => (fetch c).1 == 200)).flatMap L) ∧
    extract_urls fetch2 parse2 = .error () := by
  constructor
  · rw [get_links, get_linksAux_ok fetch parse L [1, 2, 3, 4, 5, 6] [] hp]
    simp
  · rw [extract_urls, extract_urlsAux, if_neg h404]

theorem C8_witness :
    get_links (fun c => (if c = 3 then 404 else 200, c))
      (fun b => (Except.ok [toString b] : Except Unit (List String))) =
      .ok ["1", "2", "4", "5", "6"] ∧
    extract_urls (fun c => (500, c))
      (fun b => (Except.ok [toString b] : Except Unit (List String))) = .error () := by
  have h := C8_index_page_failures (fun c => (if c = 3 then 404 else 200, c))
    (fun b => (Except.ok [toString b] : Except Unit (List String)))
    (fun c => [toString c])
    (fun c => (500, c))
    (fun b => (Except.ok [toString b] : Except Unit (List String)))
    (fun c hc h200 => rfl) (by decide)
  exact ⟨by rw [h.1]; rfl, h.2⟩

/-- The observable state of one worker's Selenium driver after
`driver.get(url)`: the page title and the outcome of each DOM lookup
the field getters perform (`none` models the `find_element` call
raising `NoSuchElementException`). -/
structure Driver where
  title : String
  pr_new_br : Option String
  prc_dsc : Option String
  attr_items : Option (List String)
  desc_list : Option String
  base_image : Option String
  slider_images : Option (List String)

/-- `get_brand_and_title` from selenium_scraper.py (lines 55-67): the
text of the `pr-new-br` element, or `None` when the lookup raises. -/
def get_brand_and_title (driver : Driver) : Option String := driver.pr_new_br

/-- `get_price` (lines 71-84): the text of the `prc-dsc` element, or
`None` when the lookup raises. -/
def get_price (driver : Driver) : Option String := driver.prc_dsc

/-- The pairing loop of `get_attributes`: each `li` text is split on
newline into exactly key and value; a text that does not split into
exactly two parts raises, and the `finally` returns the pairs built so
far. -/
def attrPairs : List String → List (String × String) → List (String × String)
  | [], acc => acc
  | li :: rest, acc =>
    match li.splitOn "\n" with
    | [k, v] => attrPairs rest (sset acc k v)
    | _ => acc

/-- `get_attributes` (lines 88-105): an absent attributes container
yields the empty dict. -/
def get_attributes (driver : Driver) : List (String × String) :=
  match driver.attr_items with
  | none => []
  | some lis => attrPairs lis []

/-- `get_description` (lines 126-140). -/
def get_description (driver : Driver) : Option String := driver.desc_list

/-- `get_images` (lines 108-123): main image then the slider gallery;
a raise keeps the images collected so far. -/
def get_images (driver : Driver) : List String :=
  match driver.base_image with
  | none => []
  | some mi =>
    match driver.slider_images with
    | none => [mi]
    | some others => mi :: others

/-- The `product_details` dict built by `Worker.scrape`: its keys are
fixed, so it is modelled as a structure. -/
structure ProductDetails where
  link : String
  brand_and_title : Option String
  price : Option String
  attributes : Option (List (String × String))
  description : Option String
  images : Option (List String)
deriving DecidableEq

/-- `Worker.scrape` from selenium_scraper.py (lines 213-234): start
from the all-`None` dict with only the url set; when the loaded page's
title equals the site's generic landing title `trendyol.com`, return it
unchanged; otherwise run the five field getters. -/
def Worker.scrape (driver : Driver) (url : String) : ProductDetails :=
  let product_details : ProductDetails :=
    { link := url, brand_and_title := none, price := none, attributes := none,
      description := none, images := none }
  if driver.title = "trendyol.com" then product_details
  else
    { link := url,
      brand_and_title := get_brand_and_title driver,
      price := get_price driver,
      attributes := some (get_attributes driver),
      description := get_description driver,
      images := some (get_images driver) }

/-- C10: for every driver state whose page title is exactly
`trendyol.com` and every url, `Worker.scrape` returns the record with
the source url set and every other field `None` — the result does not
depend on any of the page's field content, witnessing that no further
field lookup is performed. -/
theorem C10_unavailable_title (driver : Driver) (url : String)
    (h : driver.title = "trendyol.com") :
    Worker.scrape driver url =
      { link := url, brand_and_title := none, price := none, attributes := none,
        description := none, images := none } := by
  simp [Worker.scrape, h]

theorem C10_witness :
    Worker.scrape
      ⟨"trendyol.com", some "B", some "P", some ["a\nb"], some "D", some "I", some ["J"]⟩
      "u" = ⟨"u", none, none, none, none, none⟩ :=
  C10_unavailable_title
    ⟨"trendyol.com", some "B", some "P", some ["a\nb"], some "D", some "I", some ["J"]⟩
    "u" rfl
